import Mathlib

/-!
Shallow embedding of the Breakout game (src/src/main.rs) over exact rational
arithmetic.  Positions, sizes and velocities are `ℚ` (the Rust source uses
`f32`; every operation involved is `+ - * / max min abs signum`, which we
model exactly).  External library types (`macroquad`'s `Rect`, `Vec2` and
their `intersect` / `signum` methods) are embedded following the macroquad
source, which the repository links against.  Randomness
(`rand::gen_range`) and key/time input are modelled as explicit oracle
parameters threaded through the functions that consume them.
-/

namespace Breakout

/-- 2-D vector, embedding macroquad's `Vec2` (components `ℚ` for `f32`). -/
structure Vec2 where
  x : ℚ
  y : ℚ
deriving DecidableEq, Repr

/-- Axis-aligned rectangle, embedding macroquad's `Rect`. -/
structure Rect where
  x : ℚ
  y : ℚ
  w : ℚ
  h : ℚ
deriving DecidableEq, Repr

def Rect.right (r : Rect) : ℚ := r.x + r.w

def Rect.bottom (r : Rect) : ℚ := r.y + r.h

/-- `Rect::point()`: the top-left corner. -/
def Rect.point (r : Rect) : Vec2 := ⟨r.x, r.y⟩

/-- macroquad `Rect::intersect`: the overlap rectangle of two rects, `none`
when they do not meet.  Note rects that merely touch (zero-extent overlap)
yield `some` with `w = 0` or `h = 0`, exactly as in the library source
(`if right < left || bottom < top { return None; }`). -/
def Rect.intersect (a b : Rect) : Option Rect :=
  let left := max a.x b.x
  let top := max a.y b.y
  let right := min a.right b.right
  let bottom := min a.bottom b.bottom
  if right < left ∨ bottom < top then none
  else some ⟨left, top, right - left, bottom - top⟩

/-- `f32::signum` on the values that arise here: `-1` for negatives, `+1`
for zero and positives (Rust returns `1.0` on `+0.0`, and a difference of
equal finite `f32`s is `+0.0`). -/
def qsignum (q : ℚ) : ℚ := if q < 0 then -1 else 1

/-- Result of `resolve_collision`: the returned `bool` plus the final values
of the two `&mut` arguments (the moving rect and its velocity). -/
structure ResolveResult where
  hit : Bool
  a : Rect
  vel : Vec2
deriving DecidableEq, Repr

/-- Embedding of `resolve_collision` (src/src/main.rs lines 134-162).
The static rect `b` is taken by shared reference in the source (`&Rect`)
and is never written; accordingly it has no output component here. -/
def resolve_collision (a : Rect) (vel : Vec2) (b : Rect) : ResolveResult :=
  match Rect.intersect a b with
  | none => ⟨false, a, vel⟩
  | some intersection =>
    let aCenter : Vec2 := ⟨a.x + a.w * (1/2), a.y + a.h * (1/2)⟩
    let bCenter : Vec2 := ⟨b.x + b.w * (1/2), b.y + b.h * (1/2)⟩
    let toV : Vec2 := ⟨bCenter.x - aCenter.x, bCenter.y - aCenter.y⟩
    let toSignum : Vec2 := ⟨qsignum toV.x, qsignum toV.y⟩
    if intersection.w > intersection.h then
      -- bounce on the y axis
      ⟨true, { a with y := a.y - toSignum.y * intersection.h },
             { vel with y := -toSignum.y * |vel.y| }⟩
    else
      -- bounce on the x axis
      ⟨true, { a with x := a.x - toSignum.x * intersection.w },
             { vel with x := -toSignum.x * |vel.x| }⟩

/-! Constants from src/src/main.rs lines 3-7. -/

def PADDLE_SIZE : Vec2 := ⟨150, 40⟩
def PADDLE_SPEED : ℚ := 700
def BLOCK_SIZE : Vec2 := ⟨100, 40⟩
def BALL_SIZE : ℚ := 50
def BALL_SPEED : ℚ := 450

/-- `GameState` enum (src lines 9-14). -/
inductive GameState where
  | Menu
  | Game
  | Won
  | Dead
deriving DecidableEq, Repr

/-- `BlockType` enum (src lines 57-61). -/
inductive BlockType where
  | Regular
  | SpawnBallOnDeath
deriving DecidableEq, Repr

/-- `Block` struct (src lines 63-67). -/
structure Block where
  rect : Rect
  lives : ℤ
  block_type : BlockType
deriving DecidableEq, Repr

/-- `Block::new` (src lines 70-76): a fresh block of size `BLOCK_SIZE`
with 2 lives. -/
def Block.new (pos : Vec2) (block_type : BlockType) : Block :=
  ⟨⟨pos.x, pos.y, BLOCK_SIZE.x, BLOCK_SIZE.y⟩, 2, block_type⟩

/-- `Ball` struct (src lines 91-94). -/
structure Ball where
  rect : Rect
  vel : Vec2
deriving DecidableEq, Repr

/-- `Ball::new` (src lines 97-104).  The source draws
`vec2(rand::gen_range(-1., 1.), 1.).normalize()` for the velocity; the
normalized random direction is supplied here as the oracle argument `v`. -/
def Ball.new (pos : Vec2) (v : Vec2) : Ball :=
  ⟨⟨pos.x, pos.y, BALL_SIZE, BALL_SIZE⟩, v⟩

/-- `Ball::update` (src lines 106-124): integrate the position, then apply
the three wall rules in source order (left wall sets `vel.x = 1`, right
wall sets `vel.x = -1`, ceiling sets `vel.y = 1`).  `sw` is
`screen_width()`. -/
def Ball.update (sw : ℚ) (dt : ℚ) (b : Ball) : Ball :=
  let r : Rect := { b.rect with
    x := b.rect.x + b.vel.x * dt * BALL_SPEED,
    y := b.rect.y + b.vel.y * dt * BALL_SPEED }
  let v1 : Vec2 := if r.x < 0 then { b.vel with x := 1 } else b.vel
  let v2 : Vec2 := if r.x > sw - r.w then { v1 with x := -1 } else v1
  let v3 : Vec2 := if r.y < 0 then { v2 with y := 1 } else v2
  ⟨r, v3⟩

/-- Open-interior overlap of two rectangles: they share a region of
positive area.  (Distinct from `Rect.intersect` being `some`, which also
accepts mere touching.) -/
def overlaps (p q : Rect) : Prop :=
  p.x < q.x + q.w ∧ q.x < p.x + p.w ∧ p.y < q.y + q.h ∧ q.y < p.y + p.h

instance (p q : Rect) : Decidable (overlaps p q) := by
  unfold overlaps; infer_instance

/-- `Paddle::new` (src lines 21-30): centered horizontally, 100 above the
bottom of the screen.  `sw`, `sh` are `screen_width()` / `screen_height()`. -/
def Paddle.new (sw sh : ℚ) : Rect :=
  ⟨sw * (1/2) - PADDLE_SIZE.x * (1/2), sh - 100, PADDLE_SIZE.x, PADDLE_SIZE.y⟩

/-- `Paddle::update` (src lines 32-50): move by held keys, then clamp to the
screen (the two wall `if`s run in source order on the updated position). -/
def Paddle.update (sw dt : ℚ) (leftDown rightDown : Bool) (r : Rect) : Rect :=
  let xMove : ℚ :=
    match leftDown, rightDown with
    | true, false => -1
    | false, true => 1
    | _, _ => 0
  let x1 := r.x + xMove * dt * PADDLE_SPEED
  let x2 := if x1 < 0 then 0 else x1
  let x3 := if x2 > sw - r.w then sw - r.w else x2
  { r with x := x3 }

/-- Retag the block at index `i` (if any) as `SpawnBallOnDeath`, embedding
`blocks[rand_index].block_type = BlockType::SpawnBallOnDeath`. -/
def retagAt (i : ℕ) (l : List Block) : List Block :=
  match l, i with
  | [], _ => []
  | b :: rest, 0 => { b with block_type := BlockType.SpawnBallOnDeath } :: rest
  | b :: rest, n + 1 => b :: retagAt n rest

/-- `init_blocks` (src lines 182-199): append the 6×5 grid of Regular
blocks, then perform the three retagging assignments.  `r1`, `r2`, `r3` are
the three results of `rand::gen_range(0, blocks.len())`, each `< 30` when
starting from an empty collection (the `gen_range` contract). -/
def init_blocks (sw : ℚ) (r1 r2 r3 : ℕ) (blocks : List Block) : List Block :=
  let totalX : ℚ := BLOCK_SIZE.x + 5
  let totalY : ℚ := BLOCK_SIZE.y + 5
  let startX : ℚ := (sw - totalX * 6) * (1/2)
  let startY : ℚ := 50
  let placed := blocks ++ (List.range (6 * 5)).map (fun i =>
    Block.new ⟨startX + (i % 6 : ℕ) * totalX, startY + (i / 6 : ℕ) * totalY⟩
      BlockType.Regular)
  retagAt r3 (retagAt r2 (retagAt r1 placed))

/-- State threaded through the inner `for block in blocks` loop of the
collision pass: the current ball, the score, the `spawn_later` queue, and
the remaining oracle supply of normalized random directions consumed by
`Ball::new`. -/
structure PassState where
  ball : Ball
  score : ℤ
  spawnLater : List Ball
  supply : List Vec2
deriving DecidableEq, Repr

/-- Draw the next random direction from the oracle supply (models the RNG
inside `Ball::new`; the default is only reached if the supply runs dry). -/
def takeVel : List Vec2 → Vec2 × List Vec2
  | [] => (⟨0, 1⟩, [])
  | v :: rest => (v, rest)

/-- One ball-block interaction (src lines 249-259): resolve the collision;
on a hit decrement the block's lives; when lives drop to `<= 0` add 10 to
the score and, for a `SpawnBallOnDeath` block, queue a ball at the ball's
current (post-correction) position. -/
def blockStep (st : PassState) (blk : Block) : PassState × Block :=
  let r := resolve_collision st.ball.rect st.ball.vel blk.rect
  let st1 : PassState := { st with ball := ⟨r.a, r.vel⟩ }
  if r.hit then
    let lives' := blk.lives - 1
    let blk' : Block := { blk with lives := lives' }
    if lives' ≤ 0 then
      if blk.block_type = BlockType.SpawnBallOnDeath then
        let vs := takeVel st1.supply
        ({ st1 with
            score := st1.score + 10,
            spawnLater := st1.spawnLater ++ [Ball.new (Rect.point r.a) vs.1],
            supply := vs.2 }, blk')
      else
        ({ st1 with score := st1.score + 10 }, blk')
    else
      (st1, blk')
  else
    (st1, blk)

/-- The inner `for block in blocks.iter_mut()` loop for one ball. -/
def blocksLoop (st : PassState) : List Block → PassState × List Block
  | [] => (st, [])
  | blk :: rest =>
    let p1 := blockStep st blk
    let p2 := blocksLoop p1.1 rest
    (p2.1, p1.2 :: p2.2)

/-- Shared round state threaded through the outer ball loop. -/
structure LoopState where
  blocks : List Block
  score : ℤ
  spawnLater : List Ball
  supply : List Vec2
deriving DecidableEq, Repr

/-- Body of the outer loop for one ball (src lines 245-261): resolve
against the paddle (return value discarded, mutations kept), then run the
inner block loop. -/
def ballStep (paddle : Rect) (ls : LoopState) (ball : Ball) : LoopState × Ball :=
  let pr := resolve_collision ball.rect ball.vel paddle
  let st0 : PassState := ⟨⟨pr.a, pr.vel⟩, ls.score, ls.spawnLater, ls.supply⟩
  let p := blocksLoop st0 ls.blocks
  (⟨p.2, p.1.score, p.1.spawnLater, p.1.supply⟩, p.1.ball)

/-- The outer `for ball in balls.iter_mut()` loop. -/
def ballsLoop (paddle : Rect) (ls : LoopState) : List Ball → LoopState × List Ball
  | [] => (ls, [])
  | b :: rest =>
    let p1 := ballStep paddle ls b
    let p2 := ballsLoop paddle p1.1 rest
    (p2.1, p1.2 :: p2.2)

/-- The whole collision pass of a Game frame (src lines 244-264): a fresh
empty `spawn_later`, the ball-by-block double loop, then the queued balls
pushed onto the ball collection.  Returns (balls, blocks, score, unused
supply). -/
def collisionPass (paddle : Rect) (balls : List Ball) (blocks : List Block)
    (score : ℤ) (supply : List Vec2) :
    List Ball × List Block × ℤ × List Vec2 :=
  let p := ballsLoop paddle ⟨blocks, score, [], supply⟩ balls
  (p.2 ++ p.1.spawnLater, p.1.blocks, p.1.score, p.1.supply)

/-- Ball removal and the life-loss event (src lines 266-282): drop every
ball with `rect.y >= screen_height()`; if at least one ball was removed and
the collection is now empty, decrement lives, push one fresh ball just
above the paddle (random direction `freshVel`), and if lives are now
`<= 0` switch the mode to `Dead`. -/
def lifeLossStep (sh : ℚ) (paddle : Rect) (freshVel : Vec2)
    (balls : List Ball) (lives : ℤ) (mode : GameState) :
    List Ball × ℤ × GameState :=
  let ballsLen := balls.length
  let balls1 := balls.filter (fun b => decide (b.rect.y < sh))
  let removed := ballsLen - balls1.length
  if 0 < removed ∧ balls1.isEmpty then
    let lives' := lives - 1
    let balls2 := balls1 ++
      [Ball.new ⟨paddle.x + paddle.w * (1/2) - BALL_SIZE * (1/2),
                 paddle.y - 50⟩ freshVel]
    (balls2, lives', if lives' ≤ 0 then GameState.Dead else mode)
  else
    (balls1, lives, mode)

/-- `blocks.retain(|block| block.lives > 0)` (src line 284). -/
def pruneBlocks (blocks : List Block) : List Block :=
  blocks.filter (fun b => decide (0 < b.lives))

/-- Per-frame external inputs: elapsed time, screen size, key state, and
the oracle values standing for `rand::gen_range` draws (ball directions
and, on a reset, the three retag indices). -/
structure Env where
  dt : ℚ
  sw : ℚ
  sh : ℚ
  leftDown : Bool
  rightDown : Bool
  spacePressed : Bool
  supply : List Vec2
  freshVel : Vec2
  initVel : Vec2
  r1 : ℕ
  r2 : ℕ
  r3 : ℕ
deriving DecidableEq, Repr

/-- The mutable state of `main`'s loop (src lines 219-228). -/
structure GameSt where
  mode : GameState
  score : ℤ
  lives : ℤ
  paddle : Rect
  blocks : List Block
  balls : List Ball
deriving DecidableEq, Repr

/-- `reset_game` (src lines 165-179): fresh paddle, score 0, lives 3, one
centered ball, a reinitialized board.  (The caller has already set the
mode to `Menu`; `reset_game` itself does not touch it.) -/
def reset_game (e : Env) (s : GameSt) : GameSt :=
  { s with
    paddle := Paddle.new e.sw e.sh,
    score := 0,
    lives := 3,
    balls := [Ball.new ⟨e.sw * (1/2) - BALL_SIZE * (1/2), e.sh * (1/2)⟩ e.initVel],
    blocks := init_blocks e.sw e.r1 e.r2 e.r3 [] }

/-- One `GameState::Game` frame (src lines 237-288): advance the paddle and
balls, run the collision pass, apply ball removal / life loss, prune dead
blocks, and check for the win. -/
def gameFrame (e : Env) (s : GameSt) : GameSt :=
  let paddle := Paddle.update e.sw e.dt e.leftDown e.rightDown s.paddle
  let balls0 := s.balls.map (Ball.update e.sw e.dt)
  let cp := collisionPass paddle balls0 s.blocks s.score e.supply
  let ll := lifeLossStep e.sh paddle e.freshVel cp.1 s.lives s.mode
  let blocks2 := pruneBlocks cp.2.1
  { mode := if blocks2.isEmpty then GameState.Won else ll.2.2,
    score := cp.2.2.1,
    lives := ll.2.1,
    paddle := paddle,
    blocks := blocks2,
    balls := ll.1 }

/-- One iteration of the main loop's state `match` (src lines 231-302). -/
def frameStep (e : Env) (s : GameSt) : GameSt :=
  match s.mode with
  | GameState.Menu =>
    if e.spacePressed then { s with mode := GameState.Game } else s
  | GameState.Game => gameFrame e s
  | GameState.Won =>
    if e.spacePressed then reset_game e { s with mode := GameState.Menu } else s
  | GameState.Dead =>
    if e.spacePressed then reset_game e { s with mode := GameState.Menu } else s

/-- The state set up before the loop starts (src lines 219-228): Menu mode,
score 0, lives 3, one ball at `(w/2, 0.6 h)`, a fresh board. -/
def initSt (e : Env) : GameSt :=
  { mode := GameState.Menu,
    score := 0,
    lives := 3,
    paddle := Paddle.new e.sw e.sh,
    blocks := init_blocks e.sw e.r1 e.r2 e.r3 [],
    balls := [Ball.new ⟨e.sw * (1/2), e.sh * (3/5)⟩ e.initVel] }

/-- States reachable by the game loop from a start state, under any
sequence of per-frame inputs. -/
inductive Reachable : GameSt → Prop where
  | start (e : Env) : Reachable (initSt e)
  | next (e : Env) {s : GameSt} : Reachable s → Reachable (frameStep e s)

/-- Fallback block used with `List.getD` in statements about the board. -/
def defaultBlock : Block := Block.new ⟨0, 0⟩ BlockType.Regular

/-- The effect of one retagging assignment on a block. -/
def tagBlock (b : Block) : Block :=
  { b with block_type := BlockType.SpawnBallOnDeath }

/-! ### Helper lemmas -/

lemma qsignum_of_neg {q : ℚ} (h : q < 0) : qsignum q = -1 := if_pos h

lemma qsignum_of_not_neg {q : ℚ} (h : ¬ q < 0) : qsignum q = 1 := if_neg h

lemma qsignum_sq (t : ℚ) : qsignum t ^ 2 = 1 := by
  unfold qsignum; split_ifs <;> norm_num

/-- `resolve_collision` on an overlap that is wider than tall: the y-axis
branch, written out. -/
lemma resolve_collision_some_y (a : Rect) (vel : Vec2) (b : Rect) (i : Rect)
    (hi : Rect.intersect a b = some i) (hwh : i.w > i.h) :
    resolve_collision a vel b =
      ⟨true,
       { a with y := a.y - qsignum (b.y + b.h * (1/2) - (a.y + a.h * (1/2))) * i.h },
       { vel with y := -qsignum (b.y + b.h * (1/2) - (a.y + a.h * (1/2))) * |vel.y| }⟩ := by
  unfold resolve_collision
  rw [hi]
  simp [hwh]

/-- `resolve_collision` on an overlap that is not wider than tall: the
x-axis branch, written out. -/
lemma resolve_collision_some_x (a : Rect) (vel : Vec2) (b : Rect) (i : Rect)
    (hi : Rect.intersect a b = some i) (hwh : ¬ i.w > i.h) :
    resolve_collision a vel b =
      ⟨true,
       { a with x := a.x - qsignum (b.x + b.w * (1/2) - (a.x + a.w * (1/2))) * i.w },
       { vel with x := -qsignum (b.x + b.w * (1/2) - (a.x + a.w * (1/2))) * |vel.x| }⟩ := by
  unfold resolve_collision
  rw [hi]
  simp [hwh]

/-- Components of a non-empty intersection. -/
lemma intersect_eq_some (a b i : Rect) (hi : Rect.intersect a b = some i) :
    i = ⟨max a.x b.x, max a.y b.y,
         min (a.x + a.w) (b.x + b.w) - max a.x b.x,
         min (a.y + a.h) (b.y + b.h) - max a.y b.y⟩ ∧
    ¬ min (a.x + a.w) (b.x + b.w) < max a.x b.x ∧
    ¬ min (a.y + a.h) (b.y + b.h) < max a.y b.y := by
  simp only [Rect.intersect, Rect.right, Rect.bottom] at hi
  by_cases hc : min (a.x + a.w) (b.x + b.w) < max a.x b.x ∨
      min (a.y + a.h) (b.y + b.h) < max a.y b.y
  · rw [if_pos hc] at hi; exact Option.noConfusion hi
  · rw [if_neg hc] at hi
    push_neg at hc
    refine ⟨?_, not_lt.mpr hc.1, not_lt.mpr hc.2⟩
    injection hi with h
    exact h.symm

/-- One-dimensional separation: when the overlap extent along an axis is
strictly smaller than both rects' extents on that axis, the positional
correction of that axis leaves the two intervals at most touching. -/
lemma separation_1d (aT aH bT bH : ℚ)
    (ha : min (aT + aH) (bT + bH) - max aT bT < aH)
    (hb : min (aT + aH) (bT + bH) - max aT bT < bH) :
    ¬ (aT - qsignum (bT + bH * (1/2) - (aT + aH * (1/2))) *
         (min (aT + aH) (bT + bH) - max aT bT) < bT + bH ∧
       bT < aT - qsignum (bT + bH * (1/2) - (aT + aH * (1/2))) *
         (min (aT + aH) (bT + bH) - max aT bT) + aH) := by
  rcases le_or_lt (aT + aH) (bT + bH) with hBB | hBB <;>
    rcases le_or_lt aT bT with hTT | hTT
  · -- a's extent penetrates b from the low side
    rw [min_eq_left hBB, max_eq_right hTT] at ha hb ⊢
    have hq : qsignum (bT + bH * (1/2) - (aT + aH * (1/2))) = 1 :=
      qsignum_of_not_neg (by intro h; linarith)
    rw [hq]
    rintro ⟨-, h4⟩
    linarith
  · -- a contained in b along this axis: contradicts ha
    rw [min_eq_left hBB, max_eq_left hTT.le] at ha
    intro h
    linarith
  · -- b contained in a along this axis: contradicts hb
    rw [min_eq_right hBB.le, max_eq_right hTT] at hb
    intro h
    linarith
  · -- a's extent penetrates b from the high side
    rw [min_eq_right hBB.le, max_eq_left hTT.le] at ha hb ⊢
    have hq : qsignum (bT + bH * (1/2) - (aT + aH * (1/2))) = -1 :=
      qsignum_of_neg (by linarith)
    rw [hq]
    rintro ⟨h3, -⟩
    linarith

/-! ### Claim C4 -/

/-- Claim C4 (amended): when the intersection of `A` and `B` is empty,
`resolve_collision` returns `false` and leaves `A`'s position and the
velocity unchanged, and the empty intersection is the only outcome in
which it returns `false`.  (The original claim's further assertion that
this is the only side-effect-free outcome is refuted by
`resolve_collision_touching_no_mutation`.) -/
theorem resolve_collision_empty_intersection (a : Rect) (vel : Vec2) (b : Rect) :
    (Rect.intersect a b = none → resolve_collision a vel b = ⟨false, a, vel⟩) ∧
    ((resolve_collision a vel b).hit = false → Rect.intersect a b = none) := by
  cases h : Rect.intersect a b with
  | none =>
    exact ⟨fun _ => by unfold resolve_collision; rw [h], fun _ => rfl⟩
  | some i =>
    have hhit : (resolve_collision a vel b).hit = true := by
      unfold resolve_collision
      rw [h]
      by_cases hwh : i.w > i.h <;> simp [hwh]
    constructor
    · intro hc; exact Option.noConfusion hc
    · intro hc; rw [hhit] at hc; exact Bool.noConfusion hc

/-- Witness for C4: two far-apart rects; the resolver reports no hit and
changes nothing. -/
theorem resolve_collision_empty_intersection_witness :
    resolve_collision ⟨0, 0, 10, 10⟩ ⟨-1, 0⟩ ⟨100, 0, 10, 10⟩ =
      ⟨false, ⟨0, 0, 10, 10⟩, ⟨-1, 0⟩⟩ := by
  have hnone : Rect.intersect ⟨0, 0, 10, 10⟩ ⟨100, 0, 10, 10⟩ = none := by
    norm_num [Rect.intersect, Rect.right, Rect.bottom, min_def, max_def]
  exact (resolve_collision_empty_intersection ⟨0, 0, 10, 10⟩ ⟨-1, 0⟩
    ⟨100, 0, 10, 10⟩).1 hnone

/-- Counterexample for C4 as stated: two rects that merely touch have a
`some` (non-empty, zero-width) intersection, and `resolve_collision`
returns `true` while mutating neither the position nor the velocity — a
second side-effect-free outcome, contradicting "this is the only
side-effect-free outcome of the resolver". -/
theorem resolve_collision_touching_no_mutation :
    (Rect.intersect ⟨0, 0, 10, 10⟩ ⟨10, 0, 10, 10⟩).isSome = true ∧
    resolve_collision ⟨0, 0, 10, 10⟩ ⟨-1, 0⟩ ⟨10, 0, 10, 10⟩ =
      ⟨true, ⟨0, 0, 10, 10⟩, ⟨-1, 0⟩⟩ := by
  have hi : Rect.intersect ⟨0, 0, 10, 10⟩ ⟨10, 0, 10, 10⟩ = some ⟨10, 0, 0, 10⟩ := by
    norm_num [Rect.intersect, Rect.right, Rect.bottom, min_def, max_def]
  refine ⟨by rw [hi]; rfl, ?_⟩
  unfold resolve_collision
  rw [hi]
  norm_num [qsignum]

/-! ### Claim C5 -/

/-- Claim C5: on a non-empty intersection the resolver corrects along Y
exactly when the intersection is wider than tall (otherwise along X), sets
the chosen axis's velocity component to `-sign * |original component|`
where `sign` is the signum of the matching component of the vector from
`A`'s center to `B`'s center (`0` treated as `+1`), and returns `true`. -/
theorem resolve_collision_axis_rule (a : Rect) (vel : Vec2) (b : Rect) (i : Rect)
    (hi : Rect.intersect a b = some i) :
    (resolve_collision a vel b).hit = true ∧
    (i.w > i.h →
      (resolve_collision a vel b).a =
        { a with y := a.y - qsignum (b.y + b.h * (1/2) - (a.y + a.h * (1/2))) * i.h } ∧
      (resolve_collision a vel b).vel =
        ⟨vel.x, -qsignum (b.y + b.h * (1/2) - (a.y + a.h * (1/2))) * |vel.y|⟩) ∧
    (¬ i.w > i.h →
      (resolve_collision a vel b).a =
        { a with x := a.x - qsignum (b.x + b.w * (1/2) - (a.x + a.w * (1/2))) * i.w } ∧
      (resolve_collision a vel b).vel =
        ⟨-qsignum (b.x + b.w * (1/2) - (a.x + a.w * (1/2))) * |vel.x|, vel.y⟩) ∧
    qsignum 0 = 1 := by
  unfold resolve_collision
  rw [hi]
  refine ⟨?_, ?_, ?_, by norm_num [qsignum]⟩ <;>
    by_cases hwh : i.w > i.h <;>
    simp [hwh]

/-- Witness for C5: a rect penetrating another from above bounces on the
y axis with the stated velocity formula. -/
theorem resolve_collision_axis_rule_witness :
    (resolve_collision ⟨0, -10, 50, 20⟩ ⟨2, 3⟩ ⟨0, 0, 50, 50⟩).hit = true ∧
    (resolve_collision ⟨0, -10, 50, 20⟩ ⟨2, 3⟩ ⟨0, 0, 50, 50⟩).vel =
      ⟨2, -qsignum ((0 : ℚ) + 50 * (1/2) - (-10 + 20 * (1/2))) * |(3 : ℚ)|⟩ := by
  have h := resolve_collision_axis_rule ⟨0, -10, 50, 20⟩ ⟨2, 3⟩ ⟨0, 0, 50, 50⟩
    ⟨0, 0, 50, 10⟩
    (by norm_num [Rect.intersect, Rect.right, Rect.bottom, min_def, max_def])
  exact ⟨h.1, (h.2.1 (by dsimp only; norm_num)).2⟩

/-! ### Claim C10 -/

/-- Claim C10: `resolve_collision` never alters `A`'s width or height, and
on a resolved collision only the chosen axis is touched: the other axis's
position coordinate and velocity component are unchanged.  (The static
rect `b` is taken by immutable borrow `&Rect` in the source and has no
mutable state here at all.) -/
theorem resolve_collision_frame_effects (a : Rect) (vel : Vec2) (b : Rect) :
    (resolve_collision a vel b).a.w = a.w ∧
    (resolve_collision a vel b).a.h = a.h ∧
    (∀ i, Rect.intersect a b = some i →
      (i.w > i.h →
        (resolve_collision a vel b).a.x = a.x ∧
        (resolve_collision a vel b).vel.x = vel.x) ∧
      (¬ i.w > i.h →
        (resolve_collision a vel b).a.y = a.y ∧
        (resolve_collision a vel b).vel.y = vel.y)) ∧
    (Rect.intersect a b = none → resolve_collision a vel b = ⟨false, a, vel⟩) := by
  cases h : Rect.intersect a b with
  | none =>
    refine ⟨?_, ?_, ?_, ?_⟩ <;> unfold resolve_collision <;> rw [h] <;> simp
  | some i =>
    refine ⟨?_, ?_, ?_, fun hc => Option.noConfusion hc⟩
    · unfold resolve_collision; rw [h]; by_cases hwh : i.w > i.h <;> simp [hwh]
    · unfold resolve_collision; rw [h]; by_cases hwh : i.w > i.h <;> simp [hwh]
    · intro j hj
      obtain rfl : i = j := by injection hj
      unfold resolve_collision
      rw [h]
      by_cases hwh : i.w > i.h <;> simp [hwh]

/-- Witness for C10 at a concrete colliding pair: width, height, the
x position and the x velocity all survive a y-axis bounce. -/
theorem resolve_collision_frame_effects_witness :
    (resolve_collision ⟨0, -10, 50, 20⟩ ⟨2, 3⟩ ⟨0, 0, 50, 50⟩).a.w = 50 ∧
    (resolve_collision ⟨0, -10, 50, 20⟩ ⟨2, 3⟩ ⟨0, 0, 50, 50⟩).a.x = 0 ∧
    (resolve_collision ⟨0, -10, 50, 20⟩ ⟨2, 3⟩ ⟨0, 0, 50, 50⟩).vel.x = 2 := by
  have h := resolve_collision_frame_effects ⟨0, -10, 50, 20⟩ ⟨2, 3⟩ ⟨0, 0, 50, 50⟩
  have hsome : Rect.intersect ⟨0, -10, 50, 20⟩ ⟨0, 0, 50, 50⟩ = some ⟨0, 0, 50, 10⟩ := by
    norm_num [Rect.intersect, Rect.right, Rect.bottom, min_def, max_def]
  have hx := (h.2.2.1 ⟨0, 0, 50, 10⟩ hsome).1 (by dsimp only; norm_num)
  exact ⟨h.1, hx.1, hx.2⟩

/-! ### Claim C3 -/

/-- Claim C3 (amended): when the overlap extent along the chosen
correction axis is strictly smaller than both rects' extents along that
axis (i.e. neither rect spans the other on that axis), the positional
correction separates the rects exactly: afterwards they share no region of
positive area (they at most touch).  The original unconditional claim is
refuted by `resolve_collision_contained_overlap_remains`, where the moving
rect lies strictly inside the static one along the chosen axis and a
positive-area overlap survives. -/
theorem resolve_collision_separates (a : Rect) (vel : Vec2) (b : Rect) (i : Rect)
    (hi : Rect.intersect a b = some i)
    (hyy : i.w > i.h → i.h < a.h ∧ i.h < b.h)
    (hxx : ¬ i.w > i.h → i.w < a.w ∧ i.w < b.w) :
    ¬ overlaps (resolve_collision a vel b).a b := by
  obtain ⟨hieq, hc1, hc2⟩ := intersect_eq_some a b i hi
  by_cases hwh : i.w > i.h
  · obtain ⟨hah, hbh⟩ := hyy hwh
    rw [resolve_collision_some_y a vel b i hi hwh]
    rw [hieq] at hah hbh
    dsimp only at hah hbh
    intro hov
    obtain ⟨-, -, h3, h4⟩ := hov
    dsimp only at h3 h4
    rw [hieq] at h3 h4
    dsimp only at h3 h4
    exact separation_1d a.y a.h b.y b.h hah hbh ⟨h3, h4⟩
  · obtain ⟨haw, hbw⟩ := hxx hwh
    rw [resolve_collision_some_x a vel b i hi hwh]
    rw [hieq] at haw hbw
    dsimp only at haw hbw
    intro hov
    obtain ⟨h1, h2, -, -⟩ := hov
    dsimp only at h1 h2
    rw [hieq] at h1 h2
    dsimp only at h1 h2
    exact separation_1d a.x a.w b.x b.w haw hbw ⟨h1, h2⟩

/-- Witness for C3: a 50×20 rect penetrating a 50×50 rect from above is
pushed fully out (no positive-area overlap remains). -/
theorem resolve_collision_separates_witness :
    ¬ overlaps (resolve_collision ⟨0, -10, 50, 20⟩ ⟨0, 1⟩ ⟨0, 0, 50, 50⟩).a
      ⟨0, 0, 50, 50⟩ := by
  have hi : Rect.intersect ⟨0, -10, 50, 20⟩ ⟨0, 0, 50, 50⟩ = some ⟨0, 0, 50, 10⟩ := by
    norm_num [Rect.intersect, Rect.right, Rect.bottom, min_def, max_def]
  exact resolve_collision_separates ⟨0, -10, 50, 20⟩ ⟨0, 1⟩ ⟨0, 0, 50, 50⟩
    ⟨0, 0, 50, 10⟩ hi
    (fun _ => by constructor <;> norm_num)
    (fun h => absurd (by dsimp only; norm_num) h)

/-- Counterexample for C3 as stated: a thin rect strictly inside a large
rect along the chosen (y) axis.  The intersection is non-empty, yet after
`resolve_collision` the corrected rect still overlaps the static one with
positive area — the claim "after resolve, A no longer intersects B" fails
for all overlapping rectangles. -/
theorem resolve_collision_contained_overlap_remains :
    (Rect.intersect ⟨0, 60, 100, 10⟩ ⟨0, 0, 100, 100⟩).isSome = true ∧
    overlaps (resolve_collision ⟨0, 60, 100, 10⟩ ⟨0, 1⟩ ⟨0, 0, 100, 100⟩).a
      ⟨0, 0, 100, 100⟩ := by
  have hi : Rect.intersect ⟨0, 60, 100, 10⟩ ⟨0, 0, 100, 100⟩ =
      some ⟨0, 60, 100, 10⟩ := by
    norm_num [Rect.intersect, Rect.right, Rect.bottom, min_def, max_def]
  have hres : resolve_collision ⟨0, 60, 100, 10⟩ ⟨0, 1⟩ ⟨0, 0, 100, 100⟩ =
      ⟨true, ⟨0, 70, 100, 10⟩, ⟨0, 1⟩⟩ := by
    unfold resolve_collision
    rw [hi]
    norm_num [qsignum]
  refine ⟨by rw [hi]; rfl, ?_⟩
  rw [hres]
  unfold overlaps
  norm_num

/-! ### Claim C2 -/

/-- Claim C2 (amended): the squared magnitude of the velocity is preserved
by every `resolve_collision` bounce (each bounce reassigns one component to
`±|itself|`), and `Ball::update` leaves the velocity unchanged whenever the
updated position crosses no wall.  The original claim — unit magnitude
after any sequence of updates including wall handling — is refuted by
`wall_bounce_breaks_unit_velocity`: the wall branches assign `±1` outright,
which changes the magnitude whenever the other component is nonzero. -/
theorem velocity_magnitude_preservation (a : Rect) (vel : Vec2) (b : Rect)
    (ball : Ball) (sw dt : ℚ)
    (hl : ¬ ball.rect.x + ball.vel.x * dt * BALL_SPEED < 0)
    (hr : ¬ ball.rect.x + ball.vel.x * dt * BALL_SPEED > sw - ball.rect.w)
    (ht : ¬ ball.rect.y + ball.vel.y * dt * BALL_SPEED < 0) :
    (resolve_collision a vel b).vel.x ^ 2 + (resolve_collision a vel b).vel.y ^ 2
      = vel.x ^ 2 + vel.y ^ 2 ∧
    (Ball.update sw dt ball).vel = ball.vel := by
  constructor
  · cases h : Rect.intersect a b with
    | none => unfold resolve_collision; rw [h]
    | some i =>
      by_cases hwh : i.w > i.h
      · rw [resolve_collision_some_y a vel b i h hwh]
        dsimp only
        rw [neg_mul, neg_sq, mul_pow, qsignum_sq, one_mul, sq_abs]
      · rw [resolve_collision_some_x a vel b i h hwh]
        dsimp only
        rw [neg_mul, neg_sq, mul_pow, qsignum_sq, one_mul, sq_abs]
  · unfold Ball.update
    dsimp only
    rw [if_neg hl, if_neg hr, if_neg ht]

/-- Witness for C2 (amended): a concrete bounce preserving `‖v‖²` and a
concrete wall-free update leaving the velocity untouched. -/
theorem velocity_magnitude_preservation_witness :
    (resolve_collision ⟨0, 0, 10, 10⟩ ⟨2, 3⟩ ⟨5, 0, 10, 10⟩).vel.x ^ 2 +
      (resolve_collision ⟨0, 0, 10, 10⟩ ⟨2, 3⟩ ⟨5, 0, 10, 10⟩).vel.y ^ 2 =
      (2 : ℚ) ^ 2 + (3 : ℚ) ^ 2 ∧
    (Ball.update 800 0 ⟨⟨10, 10, 50, 50⟩, ⟨0, 1⟩⟩).vel = ⟨0, 1⟩ :=
  velocity_magnitude_preservation ⟨0, 0, 10, 10⟩ ⟨2, 3⟩ ⟨5, 0, 10, 10⟩
    ⟨⟨10, 10, 50, 50⟩, ⟨0, 1⟩⟩ 800 0
    (by norm_num [BALL_SPEED]) (by norm_num [BALL_SPEED]) (by norm_num [BALL_SPEED])

/-- Counterexample for C2 as stated: the unit vector `(-3/5, 4/5)` (the
normalization of `(-3/4, 1)`, a reachable `Ball::new` velocity) crosses the
left wall during an update; the wall branch sets the x component to `1`
and the resulting velocity has squared magnitude `41/25 ≠ 1`, far outside
floating tolerance. -/
theorem wall_bounce_breaks_unit_velocity :
    (-3/5 : ℚ) ^ 2 + (4/5 : ℚ) ^ 2 = 1 ∧
    (Ball.update 100 1 ⟨⟨50, 100, 50, 50⟩, ⟨-3/5, 4/5⟩⟩).vel.x ^ 2 +
      (Ball.update 100 1 ⟨⟨50, 100, 50, 50⟩, ⟨-3/5, 4/5⟩⟩).vel.y ^ 2 ≠ 1 := by
  have hu : (Ball.update 100 1 ⟨⟨50, 100, 50, 50⟩, ⟨-3/5, 4/5⟩⟩).vel = ⟨1, 4/5⟩ := by
    unfold Ball.update
    norm_num [BALL_SPEED]
  constructor
  · norm_num
  · rw [hu]
    norm_num

/-! ### Concrete collision evaluations shared by the frame-pass results -/

lemma blockType_regular_ne :
    (BlockType.Regular = BlockType.SpawnBallOnDeath) = False := by
  simp

lemma resolve_eval_pad1 :
    resolve_collision ⟨10, 20, 50, 50⟩ ⟨0, 1⟩ ⟨500, 500, 150, 40⟩ =
      ⟨false, ⟨10, 20, 50, 50⟩, ⟨0, 1⟩⟩ := by
  have h : Rect.intersect ⟨10, 20, 50, 50⟩ ⟨500, 500, 150, 40⟩ = none := by
    norm_num [Rect.intersect, Rect.right, Rect.bottom, min_def, max_def]
  unfold resolve_collision; rw [h]

lemma resolve_eval_pad2 :
    resolve_collision ⟨30, 15, 50, 50⟩ ⟨0, 1⟩ ⟨500, 500, 150, 40⟩ =
      ⟨false, ⟨30, 15, 50, 50⟩, ⟨0, 1⟩⟩ := by
  have h : Rect.intersect ⟨30, 15, 50, 50⟩ ⟨500, 500, 150, 40⟩ = none := by
    norm_num [Rect.intersect, Rect.right, Rect.bottom, min_def, max_def]
  unfold resolve_collision; rw [h]

lemma resolve_eval_pad3 :
    resolve_collision ⟨20, 10, 50, 50⟩ ⟨0, 1⟩ ⟨500, 500, 150, 40⟩ =
      ⟨false, ⟨20, 10, 50, 50⟩, ⟨0, 1⟩⟩ := by
  have h : Rect.intersect ⟨20, 10, 50, 50⟩ ⟨500, 500, 150, 40⟩ = none := by
    norm_num [Rect.intersect, Rect.right, Rect.bottom, min_def, max_def]
  unfold resolve_collision; rw [h]

lemma resolve_eval_blk1 :
    resolve_collision ⟨10, 20, 50, 50⟩ ⟨0, 1⟩ ⟨0, 0, 100, 40⟩ =
      ⟨true, ⟨10, 40, 50, 50⟩, ⟨0, 1⟩⟩ := by
  have h : Rect.intersect ⟨10, 20, 50, 50⟩ ⟨0, 0, 100, 40⟩ = some ⟨10, 20, 50, 20⟩ := by
    norm_num [Rect.intersect, Rect.right, Rect.bottom, min_def, max_def]
  unfold resolve_collision; rw [h]; norm_num [qsignum]

lemma resolve_eval_blk2 :
    resolve_collision ⟨30, 15, 50, 50⟩ ⟨0, 1⟩ ⟨0, 0, 100, 40⟩ =
      ⟨true, ⟨30, 40, 50, 50⟩, ⟨0, 1⟩⟩ := by
  have h : Rect.intersect ⟨30, 15, 50, 50⟩ ⟨0, 0, 100, 40⟩ = some ⟨30, 15, 50, 25⟩ := by
    norm_num [Rect.intersect, Rect.right, Rect.bottom, min_def, max_def]
  unfold resolve_collision; rw [h]; norm_num [qsignum]

lemma resolve_eval_blk3 :
    resolve_collision ⟨20, 10, 50, 50⟩ ⟨0, 1⟩ ⟨0, 0, 100, 40⟩ =
      ⟨true, ⟨20, 40, 50, 50⟩, ⟨0, 1⟩⟩ := by
  have h : Rect.intersect ⟨20, 10, 50, 50⟩ ⟨0, 0, 100, 40⟩ = some ⟨20, 10, 50, 30⟩ := by
    norm_num [Rect.intersect, Rect.right, Rect.bottom, min_def, max_def]
  unfold resolve_collision; rw [h]; norm_num [qsignum]

/-! ### Claim C1 -/

/-- Claim C1 (amended): a Regular block with 2 lives needs exactly two
collisions to be destroyed: the first hit leaves 1 life, no score change,
and the block survives the end-of-frame prune; the second leaves 0 lives,
adds exactly 10 to the score, queues nothing, and the block is pruned; a
miss changes nothing.  The original claim's "never a second +10 for the
same block even if further balls collide with it in the same frame" is
refuted by `regular_block_same_frame_double_score`: every hit that leaves
`lives <= 0` awards 10, so a third same-frame hit double-scores. -/
theorem regular_block_two_hit_scoring (st : PassState) (blk : Block)
    (hreg : blk.block_type = BlockType.Regular) :
    (blk.lives = 2 →
      (resolve_collision st.ball.rect st.ball.vel blk.rect).hit = true →
      (blockStep st blk).2.lives = 1 ∧
      (blockStep st blk).1.score = st.score ∧
      (blockStep st blk).1.spawnLater = st.spawnLater ∧
      pruneBlocks [(blockStep st blk).2] = [(blockStep st blk).2]) ∧
    (blk.lives = 1 →
      (resolve_collision st.ball.rect st.ball.vel blk.rect).hit = true →
      (blockStep st blk).2.lives = 0 ∧
      (blockStep st blk).1.score = st.score + 10 ∧
      (blockStep st blk).1.spawnLater = st.spawnLater ∧
      pruneBlocks [(blockStep st blk).2] = []) ∧
    ((resolve_collision st.ball.rect st.ball.vel blk.rect).hit = false →
      (blockStep st blk).2 = blk ∧
      (blockStep st blk).1.score = st.score ∧
      (blockStep st blk).1.spawnLater = st.spawnLater) := by
  refine ⟨?_, ?_, ?_⟩
  · intro h2 hhit
    simp [blockStep, hhit, h2, hreg, pruneBlocks]
  · intro h1 hhit
    simp [blockStep, hhit, h1, hreg, pruneBlocks]
  · intro hmiss
    simp [blockStep, hmiss]

/-- Witness for C1 (amended): a first hit on a 2-life block keeps the
score at 5; a second (here: a hit on a 1-life block) scores 5+10. -/
theorem regular_block_two_hit_scoring_witness :
    (blockStep ⟨⟨⟨10, 20, 50, 50⟩, ⟨0, 1⟩⟩, 5, [], []⟩
        ⟨⟨0, 0, 100, 40⟩, 2, BlockType.Regular⟩).2.lives = 1 ∧
    (blockStep ⟨⟨⟨10, 20, 50, 50⟩, ⟨0, 1⟩⟩, 5, [], []⟩
        ⟨⟨0, 0, 100, 40⟩, 2, BlockType.Regular⟩).1.score = 5 ∧
    (blockStep ⟨⟨⟨30, 15, 50, 50⟩, ⟨0, 1⟩⟩, 5, [], []⟩
        ⟨⟨0, 0, 100, 40⟩, 1, BlockType.Regular⟩).2.lives = 0 ∧
    (blockStep ⟨⟨⟨30, 15, 50, 50⟩, ⟨0, 1⟩⟩, 5, [], []⟩
        ⟨⟨0, 0, 100, 40⟩, 1, BlockType.Regular⟩).1.score = 5 + 10 := by
  have h1 := (regular_block_two_hit_scoring ⟨⟨⟨10, 20, 50, 50⟩, ⟨0, 1⟩⟩, 5, [], []⟩
      ⟨⟨0, 0, 100, 40⟩, 2, BlockType.Regular⟩ rfl).1 rfl
    (by dsimp only; rw [resolve_eval_blk1])
  have h2 := (regular_block_two_hit_scoring ⟨⟨⟨30, 15, 50, 50⟩, ⟨0, 1⟩⟩, 5, [], []⟩
      ⟨⟨0, 0, 100, 40⟩, 1, BlockType.Regular⟩ rfl).2.1 rfl
    (by dsimp only; rw [resolve_eval_blk2])
  exact ⟨h1.1, h1.2.1, h2.1, h2.2.1⟩

/-- Counterexample for C1 as stated: one Regular block with 2 lives and
three balls all overlapping it in the same frame.  The first two hits
destroy the block (+10); the third ball still finds the dead block in the
list before the end-of-frame prune, hits it, and `lives <= 0` awards a
second +10: the frame's score is 20, not 10, for a single block. -/
theorem regular_block_same_frame_double_score :
    (collisionPass ⟨500, 500, 150, 40⟩
      [⟨⟨10, 20, 50, 50⟩, ⟨0, 1⟩⟩, ⟨⟨30, 15, 50, 50⟩, ⟨0, 1⟩⟩, ⟨⟨20, 10, 50, 50⟩, ⟨0, 1⟩⟩]
      [⟨⟨0, 0, 100, 40⟩, 2, BlockType.Regular⟩] 0 []).2.2.1 = 20 := by
  norm_num [collisionPass, ballsLoop, ballStep, blocksLoop, blockStep, takeVel,
    blockType_regular_ne, resolve_eval_pad1, resolve_eval_pad2, resolve_eval_pad3,
    resolve_eval_blk1, resolve_eval_blk2, resolve_eval_blk3]

/-! ### Claim C6 -/

/-- Claim C6 (amended): every hit that leaves a `SpawnBallOnDeath` block
with `lives <= 0` queues exactly one ball, at the detecting ball's current
(post-correction) position; every block interaction queues at most that
one ball; the ball-by-block double loop never lengthens the ball list it
iterates over (its output has exactly the input's length); and the queued
balls are appended only after the double loop completes.  The original
claim's "each destruction queues exactly one new ball" is refuted by
`spawn_block_same_frame_double_spawn`: a dead-but-unpruned special block
hit again in the same frame queues an extra ball, so one destruction can
queue two. -/
theorem spawn_queue_discipline :
    (∀ st blk, (resolve_collision st.ball.rect st.ball.vel blk.rect).hit = true →
      blk.lives - 1 ≤ 0 → blk.block_type = BlockType.SpawnBallOnDeath →
      (blockStep st blk).1.spawnLater =
        st.spawnLater ++
          [Ball.new (Rect.point (resolve_collision st.ball.rect st.ball.vel blk.rect).a)
            (takeVel st.supply).1]) ∧
    (∀ st blk, (blockStep st blk).1.spawnLater = st.spawnLater ∨
      (blockStep st blk).1.spawnLater =
        st.spawnLater ++
          [Ball.new (Rect.point (resolve_collision st.ball.rect st.ball.vel blk.rect).a)
            (takeVel st.supply).1]) ∧
    (∀ paddle ls balls, ((ballsLoop paddle ls balls).2).length = balls.length) ∧
    (∀ paddle balls blocks score su,
      (collisionPass paddle balls blocks score su).1 =
        (ballsLoop paddle ⟨blocks, score, [], su⟩ balls).2 ++
        (ballsLoop paddle ⟨blocks, score, [], su⟩ balls).1.spawnLater) := by
  refine ⟨?_, ?_, ?_, ?_⟩
  · intro st blk hhit hd hsp
    simp [blockStep, hhit, hd, hsp]
  · intro st blk
    by_cases hhit : (resolve_collision st.ball.rect st.ball.vel blk.rect).hit = true
    · by_cases hd : blk.lives - 1 ≤ 0
      · by_cases hsp : blk.block_type = BlockType.SpawnBallOnDeath
        · right; simp [blockStep, hhit, hd, hsp]
        · left; simp [blockStep, hhit, hd, hsp]
      · left; simp [blockStep, hhit, hd]
    · left; simp [blockStep, hhit]
  · intro paddle ls balls
    induction balls generalizing ls with
    | nil => rfl
    | cons b rest ih => simp [ballsLoop, ih]
  · intro paddle balls blocks score su
    rfl

/-- Witness for C6 (amended): a hit that kills a special block queues
exactly the one ball at the hitting ball's corrected position. -/
theorem spawn_queue_discipline_witness :
    (blockStep ⟨⟨⟨30, 15, 50, 50⟩, ⟨0, 1⟩⟩, 0, [], [⟨0, 1⟩]⟩
        ⟨⟨0, 0, 100, 40⟩, 1, BlockType.SpawnBallOnDeath⟩).1.spawnLater =
      [Ball.new ⟨30, 40⟩ ⟨0, 1⟩] := by
  have h := spawn_queue_discipline.1 ⟨⟨⟨30, 15, 50, 50⟩, ⟨0, 1⟩⟩, 0, [], [⟨0, 1⟩]⟩
    ⟨⟨0, 0, 100, 40⟩, 1, BlockType.SpawnBallOnDeath⟩
    (by dsimp only; rw [resolve_eval_blk2]) (by norm_num) rfl
  dsimp only at h
  rw [resolve_eval_blk2] at h
  simpa [Rect.point, takeVel] using h

/-- Counterexample for C6 as stated: one special block, three balls hitting
it in one frame.  The block is destroyed once (it is pruned, and there was
only one block), yet two balls are queued: the collision pass returns
3 + 2 = 5 balls. -/
theorem spawn_block_same_frame_double_spawn :
    ((collisionPass ⟨500, 500, 150, 40⟩
        [⟨⟨10, 20, 50, 50⟩, ⟨0, 1⟩⟩, ⟨⟨30, 15, 50, 50⟩, ⟨0, 1⟩⟩, ⟨⟨20, 10, 50, 50⟩, ⟨0, 1⟩⟩]
        [⟨⟨0, 0, 100, 40⟩, 2, BlockType.SpawnBallOnDeath⟩] 0
        [⟨0, 1⟩, ⟨0, 1⟩]).1).length = 5 ∧
    pruneBlocks (collisionPass ⟨500, 500, 150, 40⟩
        [⟨⟨10, 20, 50, 50⟩, ⟨0, 1⟩⟩, ⟨⟨30, 15, 50, 50⟩, ⟨0, 1⟩⟩, ⟨⟨20, 10, 50, 50⟩, ⟨0, 1⟩⟩]
        [⟨⟨0, 0, 100, 40⟩, 2, BlockType.SpawnBallOnDeath⟩] 0
        [⟨0, 1⟩, ⟨0, 1⟩]).2.1 = [] := by
  constructor <;>
  norm_num [collisionPass, ballsLoop, ballStep, blocksLoop, blockStep, takeVel,
    pruneBlocks, Ball.new, Rect.point, BALL_SIZE,
    resolve_eval_pad1, resolve_eval_pad2, resolve_eval_pad3,
    resolve_eval_blk1, resolve_eval_blk2, resolve_eval_blk3]

/-! ### Claim C7 -/

lemma retagAt_length (i : ℕ) (l : List Block) : (retagAt i l).length = l.length := by
  induction l generalizing i with
  | nil => cases i <;> rfl
  | cons b rest ih =>
    cases i with
    | zero => rfl
    | succ n => simp [retagAt, ih]

lemma getD_retagAt (l : List Block) (i k : ℕ) (d : Block) :
    (retagAt i l).getD k d =
      if i = k ∧ k < l.length then tagBlock (l.getD k d) else l.getD k d := by
  induction l generalizing i k with
  | nil => cases i <;> simp [retagAt]
  | cons b rest ih =>
    cases i with
    | zero =>
      cases k with
      | zero => simp [retagAt, tagBlock]
      | succ k => simp [retagAt]
    | succ n =>
      cases k with
      | zero => simp [retagAt]
      | succ k =>
        simp only [retagAt, List.getD_cons_succ, List.length_cons, ih]
        simp [Nat.succ_lt_succ_iff]

lemma getD_map_range {α : Type} (f : ℕ → α) (n k : ℕ) (hk : k < n) (d : α) :
    ((List.range n).map f).getD k d = f k := by
  rw [List.getD_eq_getElem?_getD, List.getElem?_map, List.getElem?_range hk]
  rfl

/-- The board after `init_blocks` on an empty collection, block by block:
grid position from `i % 6` and `i / 6`, 2 lives, and the variant tag
determined by whether any of the three retag draws named this index. -/
lemma init_blocks_getD (sw : ℚ) (r1 r2 r3 k : ℕ) (hk : k < 30) :
    (init_blocks sw r1 r2 r3 []).getD k defaultBlock =
      ⟨⟨(sw - 630) * (1/2) + (k % 6 : ℕ) * 105, 50 + (k / 6 : ℕ) * 45, 100, 40⟩, 2,
       if r1 = k ∨ r2 = k ∨ r3 = k then BlockType.SpawnBallOnDeath
       else BlockType.Regular⟩ := by
  simp only [init_blocks, List.nil_append]
  rw [getD_retagAt, getD_retagAt, getD_retagAt]
  simp only [retagAt_length, List.length_map, List.length_range]
  rw [getD_map_range _ _ _ (show k < 6 * 5 by omega)]
  have hk' : k < 6 * 5 := by omega
  by_cases c3 : r3 = k <;> by_cases c2 : r2 = k <;> by_cases c1 : r1 = k <;>
    simp [c1, c2, c3, hk', tagBlock, Block.new, BLOCK_SIZE] <;>
    norm_num

lemma init_blocks_length (sw : ℚ) (r1 r2 r3 : ℕ) :
    (init_blocks sw r1 r2 r3 []).length = 30 := by
  simp [init_blocks, retagAt_length]

/-- Claim C7: on an empty collection `init_blocks` produces exactly
6 × 5 = 30 blocks; block `k` sits at column `k % 6`, row `k / 6` of the
padded grid from the fixed start position, is created Regular with
2 lives, and carries the `SpawnBallOnDeath` tag exactly when one of the
three retag draws (sampled with replacement from `[0, 30)`) named index
`k`.  The last conjunct exhibits the with-replacement edge case: with the
three draws all equal to 0, exactly one block (index 0) ends up tagged, so
fewer than 3 unique `SpawnBallOnDeath` blocks result. -/
theorem init_blocks_board (sw : ℚ) (r1 r2 r3 : ℕ)
    (h1 : r1 < 30) (h2 : r2 < 30) (h3 : r3 < 30) :
    (init_blocks sw r1 r2 r3 []).length = 30 ∧
    (∀ k, k < 30 →
      (init_blocks sw r1 r2 r3 []).getD k defaultBlock =
        ⟨⟨(sw - 630) * (1/2) + (k % 6 : ℕ) * 105, 50 + (k / 6 : ℕ) * 45, 100, 40⟩, 2,
         if r1 = k ∨ r2 = k ∨ r3 = k then BlockType.SpawnBallOnDeath
         else BlockType.Regular⟩) ∧
    (∀ k, k < 30 →
      ((init_blocks sw 0 0 0 []).getD k defaultBlock).block_type =
        if k = 0 then BlockType.SpawnBallOnDeath else BlockType.Regular) := by
  refine ⟨init_blocks_length sw r1 r2 r3,
    fun k hk => init_blocks_getD sw r1 r2 r3 k hk, ?_⟩
  intro k hk
  rw [init_blocks_getD sw 0 0 0 k hk]
  by_cases h0 : k = 0
  · simp [h0]
  · have h0' : ¬ 0 = k := fun h => h0 h.symm
    simp [h0, h0']

/-- Witness for C7 at `sw = 800`, draws (1, 2, 1): 30 blocks, block 7
Regular at its grid slot, block 2 retagged `SpawnBallOnDeath`. -/
theorem init_blocks_board_witness :
    (init_blocks 800 1 2 1 []).length = 30 ∧
    (init_blocks 800 1 2 1 []).getD 7 defaultBlock =
      ⟨⟨(800 - 630) * (1/2) + ((7 : ℕ) % 6 : ℕ) * 105,
        50 + ((7 : ℕ) / 6 : ℕ) * 45, 100, 40⟩, 2, BlockType.Regular⟩ ∧
    (init_blocks 800 1 2 1 []).getD 2 defaultBlock =
      ⟨⟨(800 - 630) * (1/2) + ((2 : ℕ) % 6 : ℕ) * 105,
        50 + ((2 : ℕ) / 6 : ℕ) * 45, 100, 40⟩, 2, BlockType.SpawnBallOnDeath⟩ := by
  have h := init_blocks_board 800 1 2 1 (by omega) (by omega) (by omega)
  refine ⟨h.1, ?_, ?_⟩
  · have h7 := h.2.1 7 (by omega)
    rw [h7]
    norm_num
  · have hb := h.2.1 2 (by omega)
    rw [hb]
    norm_num

/-! ### Claim C8 -/

/-- Claim C8: the life-loss step removes exactly the balls whose vertical
position has passed the bottom of the screen; if and only if this removal
empties the collection, lives decrement by exactly 1 and exactly one
replacement ball is created just above the paddle that same frame, with a
transition to `Dead` exactly when the decremented lives are `<= 0` (which
covers both "lives reach 0 after the decrement" and the "lives were
already 0" case, where the mode also transitions to `Dead`); otherwise
balls, lives and mode are untouched beyond the prune. -/
theorem life_loss_rule (sh : ℚ) (paddle : Rect) (fv : Vec2)
    (balls : List Ball) (lives : ℤ) (mode : GameState) :
    (balls ≠ [] ∧ balls.filter (fun b => decide (b.rect.y < sh)) = [] →
      (lifeLossStep sh paddle fv balls lives mode).2.1 = lives - 1 ∧
      (lifeLossStep sh paddle fv balls lives mode).1 =
        [Ball.new ⟨paddle.x + paddle.w * (1/2) - BALL_SIZE * (1/2), paddle.y - 50⟩ fv] ∧
      (lives - 1 ≤ 0 → (lifeLossStep sh paddle fv balls lives mode).2.2 = GameState.Dead) ∧
      (0 < lives - 1 → (lifeLossStep sh paddle fv balls lives mode).2.2 = mode)) ∧
    (¬ (balls ≠ [] ∧ balls.filter (fun b => decide (b.rect.y < sh)) = []) →
      lifeLossStep sh paddle fv balls lives mode =
        (balls.filter (fun b => decide (b.rect.y < sh)), lives, mode)) := by
  constructor
  · rintro ⟨hne, hkept⟩
    have hc : 0 < balls.length - (balls.filter (fun b => decide (b.rect.y < sh))).length ∧
        (balls.filter (fun b => decide (b.rect.y < sh))).isEmpty := by
      rw [hkept]
      refine ⟨?_, rfl⟩
      simp only [List.length_nil, Nat.sub_zero]
      exact List.length_pos.mpr hne
    simp only [lifeLossStep]
    rw [if_pos hc, hkept]
    refine ⟨rfl, rfl, fun h => ?_, fun h => ?_⟩
    · simp only [if_pos h]
    · simp only [if_neg (not_le.mpr h)]
  · intro hne
    have hc : ¬ (0 < balls.length - (balls.filter (fun b => decide (b.rect.y < sh))).length ∧
        (balls.filter (fun b => decide (b.rect.y < sh))).isEmpty) := by
      rintro ⟨hpos, hemp⟩
      apply hne
      have hkept : balls.filter (fun b => decide (b.rect.y < sh)) = [] :=
        List.isEmpty_iff.mp hemp
      refine ⟨?_, hkept⟩
      rw [hkept] at hpos
      simp only [List.length_nil, Nat.sub_zero] at hpos
      exact List.length_pos.mp hpos
    simp only [lifeLossStep]
    rw [if_neg hc]

/-- Witness for C8: the only ball (at y = 700, past a 600-high screen) is
removed; lives drop 3 → 2, mode stays `Game`, and one replacement ball
appears above the paddle. -/
theorem life_loss_rule_witness :
    (lifeLossStep 600 ⟨100, 500, 150, 40⟩ ⟨0, 1⟩
        [⟨⟨0, 700, 50, 50⟩, ⟨0, 1⟩⟩] 3 GameState.Game).2.1 = 2 ∧
    (lifeLossStep 600 ⟨100, 500, 150, 40⟩ ⟨0, 1⟩
        [⟨⟨0, 700, 50, 50⟩, ⟨0, 1⟩⟩] 3 GameState.Game).2.2 = GameState.Game ∧
    (lifeLossStep 600 ⟨100, 500, 150, 40⟩ ⟨0, 1⟩
        [⟨⟨0, 700, 50, 50⟩, ⟨0, 1⟩⟩] 3 GameState.Game).1 =
      [Ball.new ⟨100 + 150 * (1/2) - BALL_SIZE * (1/2), 500 - 50⟩ ⟨0, 1⟩] := by
  have hkept : ([⟨⟨0, 700, 50, 50⟩, ⟨0, 1⟩⟩] : List Ball).filter
      (fun b => decide (b.rect.y < 600)) = [] := by
    rw [List.filter_cons]
    norm_num
  have h := (life_loss_rule 600 ⟨100, 500, 150, 40⟩ ⟨0, 1⟩
      [⟨⟨0, 700, 50, 50⟩, ⟨0, 1⟩⟩] 3 GameState.Game).1 ⟨by simp, hkept⟩
  refine ⟨?_, ?_, ?_⟩
  · rw [h.1]; norm_num
  · exact h.2.2.2 (by norm_num)
  · exact h.2.1

/-! ### Claim C9 -/

/-- The life-loss step either keeps lives and mode, or decrements lives by
exactly one and then keeps the mode only when the result is positive
(otherwise the mode is `Dead`). -/
lemma lifeLossStep_lives_mode (sh : ℚ) (paddle : Rect) (fv : Vec2)
    (balls : List Ball) (lives : ℤ) (mode : GameState) :
    ((lifeLossStep sh paddle fv balls lives mode).2.1 = lives ∧
     (lifeLossStep sh paddle fv balls lives mode).2.2 = mode) ∨
    ((lifeLossStep sh paddle fv balls lives mode).2.1 = lives - 1 ∧
     ((lifeLossStep sh paddle fv balls lives mode).2.2 = mode ∧ 0 < lives - 1 ∨
      (lifeLossStep sh paddle fv balls lives mode).2.2 = GameState.Dead)) := by
  simp only [lifeLossStep]
  split_ifs with hc hd
  · right
    exact ⟨rfl, Or.inr rfl⟩
  · right
    exact ⟨rfl, Or.inl ⟨rfl, by omega⟩⟩
  · left
    exact ⟨rfl, rfl⟩

/-- One frame preserves the lives invariant: lives stay non-negative, and
in `Menu` or `Game` mode they stay positive. -/
lemma frameStep_inv (e : Env) (s : GameSt)
    (h0 : 0 ≤ s.lives)
    (h1 : (s.mode = GameState.Menu ∨ s.mode = GameState.Game) → 1 ≤ s.lives) :
    0 ≤ (frameStep e s).lives ∧
    (((frameStep e s).mode = GameState.Menu ∨ (frameStep e s).mode = GameState.Game) →
      1 ≤ (frameStep e s).lives) := by
  cases hm : s.mode with
  | Menu =>
    simp only [frameStep, hm]
    split_ifs with hsp
    · exact ⟨h0, fun _ => h1 (Or.inl hm)⟩
    · exact ⟨h0, fun _ => h1 (Or.inl hm)⟩
  | Game =>
    have hl := h1 (Or.inr hm)
    simp only [frameStep, hm, gameFrame]
    rcases lifeLossStep_lives_mode e.sh
        (Paddle.update e.sw e.dt e.leftDown e.rightDown s.paddle) e.freshVel
        (collisionPass (Paddle.update e.sw e.dt e.leftDown e.rightDown s.paddle)
          (s.balls.map (Ball.update e.sw e.dt)) s.blocks s.score e.supply).1
        s.lives GameState.Game with hcase | hcase
    · refine ⟨by rw [hcase.1]; omega, fun _ => by rw [hcase.1]; exact hl⟩
    · refine ⟨by rw [hcase.1]; omega, fun hmode => ?_⟩
      rw [hcase.1]
      by_cases hbe : (pruneBlocks (collisionPass
          (Paddle.update e.sw e.dt e.leftDown e.rightDown s.paddle)
          (s.balls.map (Ball.update e.sw e.dt)) s.blocks s.score e.supply).2.1).isEmpty
      · simp only [hbe, if_true] at hmode
        rcases hmode with h | h <;> exact GameState.noConfusion h
      · simp only [hbe, if_false] at hmode
        rcases hcase.2 with ⟨hmode2, hpos⟩ | hdead
        · omega
        · rw [hdead] at hmode
          rcases hmode with h | h <;> exact GameState.noConfusion h
  | Won =>
    simp only [frameStep, hm]
    split_ifs with hsp
    · exact ⟨by norm_num [reset_game], fun _ => by norm_num [reset_game]⟩
    · exact ⟨h0, fun hcon => by simp [hm] at hcon⟩
  | Dead =>
    simp only [frameStep, hm]
    split_ifs with hsp
    · exact ⟨by norm_num [reset_game], fun _ => by norm_num [reset_game]⟩
    · exact ⟨h0, fun hcon => by simp [hm] at hcon⟩

/-- Claim C9: in every state reachable by the game loop — from the initial
state (lives = 3, `Menu` mode) through any sequence of frames, including
resets — the player's lives are never negative; moreover lives are still
positive whenever the loop is in `Menu` or `Game` mode, so a life-loss
decrement (by exactly 1, see `lifeLossStep_lives_mode`) only ever happens
with lives > 0, and the `Dead` transition at lives = 0 prevents any
further decrement. -/
theorem reachable_lives_nonneg (s : GameSt) (h : Reachable s) :
    0 ≤ s.lives ∧
    ((s.mode = GameState.Menu ∨ s.mode = GameState.Game) → 1 ≤ s.lives) := by
  induction h with
  | start e => exact ⟨by norm_num [initSt], fun _ => by norm_num [initSt]⟩
  | next e hs ih => exact frameStep_inv e _ ih.1 ih.2

/-- Witness for C9 at the initial state of a concrete environment. -/
theorem reachable_lives_nonneg_witness :
    0 ≤ (initSt ⟨0, 800, 600, false, false, false, [], ⟨0, 1⟩, ⟨0, 1⟩, 0, 0, 0⟩).lives ∧
    (((initSt ⟨0, 800, 600, false, false, false, [], ⟨0, 1⟩, ⟨0, 1⟩, 0, 0, 0⟩).mode =
          GameState.Menu ∨
      (initSt ⟨0, 800, 600, false, false, false, [], ⟨0, 1⟩, ⟨0, 1⟩, 0, 0, 0⟩).mode =
          GameState.Game) →
      1 ≤ (initSt ⟨0, 800, 600, false, false, false, [], ⟨0, 1⟩, ⟨0, 1⟩, 0, 0, 0⟩).lives) :=
  reachable_lives_nonneg _ (Reachable.start _)

end Breakout

